import Mathlib

/-!
Verification development for the docker-leash authorization engine.

The definitions below are a shallow embedding of `src/docker_leash/config.py`
(the `Config` class: `update`, `get_rules`, `_default_rule`, `_match_host`,
`_get_policy_by_member`, `_match_rules`) together with the container-name
check plugin, which is exercised by `src/tests/checks/test_container_name.py`.
Python exceptions are modelled with `Except`, Python `dict`s as association
lists, and Python `None` as `Option.none`.
-/

deriving instance DecidableEq for Except

namespace DockerLeash

/-- The exceptions that the modelled code can raise.
`configurationException` carries the offending host pattern (the source
formats it into a message string; the message text is immaterial here).
`indexError` models Python's `IndexError` from indexing into an empty
string (`hosts_reg[0]`). -/
inductive PyErr where
  | configurationException (pat : String)
  | indexError
  | invalidRequestException
  | unauthorizedException
deriving DecidableEq

/-- Opaque check-argument values stored in the configuration (the code never
inspects them; it only moves them around). -/
inductive PyVal where
  | pyNone
  | pyStr (s : String)
deriving DecidableEq

/-! ### A model of Python `re.match` for the pattern subset the repository uses

The configuration and the tests only use anchors (`^`), the wildcard `.`,
the quantifiers `*` and `+`, backslash escapes, and literal characters.
`re.match` anchors at the start of the string and succeeds on any matching
prefix. -/

/-- A single regex atom: the wildcard `.` or a literal character. -/
inductive Atom where
  | dot
  | lit (c : Char)
deriving DecidableEq

/-- Read the next atom off a pattern: an escaped character is a literal,
`.` is the wildcard, anything else is itself a literal. -/
def nextAtom : List Char → Option (Atom × List Char)
  | [] => none
  | '\\' :: c :: rest => some (Atom.lit c, rest)
  | '\\' :: [] => some (Atom.lit '\\', [])
  | '.' :: rest => some (Atom.dot, rest)
  | c :: rest => some (Atom.lit c, rest)

/-- Whether an atom matches one character. -/
def atomMatches : Atom → Char → Bool
  | Atom.dot, _ => true
  | Atom.lit c, x => c == x

/-- Re-render an atom as pattern text (used to rewrite `a+` into `a a*`). -/
def atomPattern : Atom → List Char
  | Atom.dot => ['.']
  | Atom.lit c => ['\\', c]

/-- Backtracking matcher: does the pattern match a prefix of the string?
Fuel bounds the recursion; every use supplies enough fuel for the inputs. -/
def reMatchHere : Nat → List Char → List Char → Bool
  | 0, _, _ => false
  | Nat.succ fuel, p, s =>
    match nextAtom p with
    | none => true
    | some (a, rest) =>
      match rest with
      | '*' :: rest2 =>
        reMatchHere fuel rest2 s ||
          (match s with
           | [] => false
           | x :: xs => atomMatches a x && reMatchHere fuel p xs)
      | '+' :: rest2 =>
        (match s with
         | [] => false
         | x :: xs => atomMatches a x && reMatchHere fuel (atomPattern a ++ ('*' :: rest2)) xs)
      | _ =>
        match s with
        | [] => false
        | x :: xs => atomMatches a x && reMatchHere fuel rest xs

/-- Model of Python `re.match pattern s` (truthiness of the returned match
object): anchored at the start, succeeds on a matching prefix. A leading
`^` is redundant under `re.match` and is stripped. -/
def re_match (pat s : String) : Bool :=
  let p := match pat.data with
    | '^' :: rest => rest
    | other => other
  reMatchHere ((p.length + 1) * (s.data.length + 1) + 1) p s.data

/-! ### Host matching: `Config._match_host` -/

/-- The loop of `Config._match_host`, carrying the running `match` flag.
For each entry, `mode = hosts_reg[0]` (raising `IndexError` on an empty
string), `regex = hosts_reg[1:]`; `+` sets the flag on a regex match, `-`
clears it on a regex match, anything else raises `ConfigurationException`. -/
def matchHostGo (hostname : String) : Bool → List String → Except PyErr Bool
  | m, [] => Except.ok m
  | m, hosts_reg :: rest =>
    match hosts_reg.data with
    | [] => Except.error PyErr.indexError
    | mode :: regexChars =>
      if mode = '+' then
        if re_match (String.mk regexChars) hostname then matchHostGo hostname true rest
        else matchHostGo hostname m rest
      else if mode = '-' then
        if re_match (String.mk regexChars) hostname then matchHostGo hostname false rest
        else matchHostGo hostname m rest
      else Except.error (PyErr.configurationException hosts_reg)

/-- Model of `Config._match_host`: validate whether a hostname matches the signed
host-regex list, starting from `match = False`. -/
def match_host (hostname : String) (host_rules : List String) : Except PyErr Bool :=
  matchHostGo hostname false host_rules

/-! ### Groups, policies, rules: the data the `Config` class stores -/

/-- The groups table: group name to member list (a Python dict of lists). -/
abbrev GroupsT := List (String × List String)

/-- A check mapping inside a policy: check name to its opaque arguments
(in the source, the value of one action key inside `policy["rules"]`). -/
abbrev CheckMap := List (String × PyVal)

/-- A policy: its member group names (`policy["members"]`) and its action
rules (`policy["rules"]`, keyed by action name, namespace name or `any`). -/
structure Policy where
  members : List String
  rules : List (String × CheckMap)
deriving DecidableEq

/-- A top-level policy rule: its signed host patterns (`rule["hosts"]`),
its optional policy list (`none` models the `"policies"` key being absent),
and its default checks (`rule["default"]`). -/
structure Rule where
  hosts : List String
  policies : Option (List Policy)
  default : CheckMap
deriving DecidableEq

/-- Modelled from the spec: the `Checks` container of `checks_list.py` (not
under `src/`) is "an ordered, append-only collection of (check-name,
arguments) pairs, preserving insertion order"; modelled as a list. -/
abbrev Checks := List (String × PyVal)

/-- Modelled from the spec: `Checks.add` appends the entries of the given
check dict, preserving order. -/
def checksAdd (checks : Checks) (entries : CheckMap) : Checks :=
  checks ++ entries

/-- Modelled from the spec: the `Action` of `action_mapper.py` (not under
`src/`) as used by `Config`: an action name and its namespace (parent). -/
structure Action where
  name : String
  namespace_name : String
deriving DecidableEq

/-- Modelled from the spec: the request payload (`payload.py` is not under
`src/`): caller identity or the anonymous sentinel (`none`), HTTP method,
request URI, and target host (`payload.get_host()`). `method` and `uri`
are optional because `Payload({})` in the tests has neither. -/
structure Payload where
  user : Option String
  method : Option String
  uri : Option String
  host : String
deriving DecidableEq

/-! ### `Config._get_policy_by_member` -/

/-- The membership test applied to one group name inside the loop of
`Config._get_policy_by_member`: the group must be a key of the groups
table, and then its member list must contain the username, or `"*"`, or
(username is `None` and) `"Anonymous"`. -/
def memberMatch (groups : GroupsT) (username : Option String) (group : String) : Bool :=
  match groups.lookup group with
  | none => false
  | some members =>
    (match username with
     | some u => members.contains u
     | none => false)
    || members.contains "*"
    || (username.isNone && members.contains "Anonymous")

/-- Model of `Config._get_policy_by_member`: return the `rules` of the first policy
one of whose member groups matches the username; `none` if no policy does. -/
def get_policy_by_member (groups : GroupsT) (username : Option String) :
    List Policy → Option (List (String × CheckMap))
  | [] => none
  | policy :: rest =>
    if policy.members.any (memberMatch groups username) then some policy.rules
    else get_policy_by_member groups username rest

/-! ### `Config._match_rules` -/

/-- The check-building loop of `Config._match_rules`: start from a fresh
`Checks()` and `add` each `(check, args)` entry of the selected mapping. -/
def addAll (m : CheckMap) : Checks :=
  m.foldl (fun checks entry => checksAdd checks [(entry.1, entry.2)]) []

/-- Model of `Config._match_rules`: look up the action name, `elif` the parent
(namespace) action name, `elif` the literal key `"any"`; collect the
entries of the first mapping found, else return the empty `Checks`. -/
def match_rules (action : Action) (actions : List (String × CheckMap)) : Checks :=
  match actions.lookup action.name with
  | some m => addAll m
  | none =>
    match actions.lookup action.namespace_name with
    | some m => addAll m
    | none =>
      match actions.lookup "any" with
      | some m => addAll m
      | none => []

/-! ### `Config._default_rule` and `Config.get_rules` -/

/-- Model of `Config._default_rule`: a fresh `Checks()` with `rule["default"]` added. -/
def default_rule (rule : Rule) : Checks :=
  checksAdd [] rule.default

/-- The rule loop of `Config.get_rules`: skip rules whose hosts do not
match; inside the first matching rule, fall back to `_default_rule` when
the `"policies"` key is absent, when `_get_policy_by_member` returns
`None`, or when `_match_rules` returns an empty `Checks`; `ok none`
models falling off the end of the loop (Python returns `None`). -/
def getRulesGo (groups : GroupsT) (action : Action) (username : Option String)
    (hostname : String) : List Rule → Except PyErr (Option Checks)
  | [] => Except.ok none
  | rule :: rest =>
    match match_host hostname rule.hosts with
    | Except.error e => Except.error e
    | Except.ok m =>
      if !m then getRulesGo groups action username hostname rest
      else
        match rule.policies with
        | none => Except.ok (some (default_rule rule))
        | some pols =>
          match get_policy_by_member groups username pols with
          | none => Except.ok (some (default_rule rule))
          | some prules =>
            let rules := match_rules action prules
            if rules.isEmpty then Except.ok (some (default_rule rule))
            else Except.ok (some rules)

/-- Model of `Config.get_rules`: derive the action from the payload's method and URI
through the Action Resolver (an excluded collaborator, passed as the
function `resolve`), the hostname from the payload, and run the rule loop
over the stored policy-rule list. -/
def get_rules (resolve : Option String → Option String → Action)
    (groups : GroupsT) (policies : List Rule) (payload : Payload) :
    Except PyErr (Option Checks) :=
  getRulesGo groups (resolve payload.method payload.uri) payload.user payload.host policies

/-! ### `Config.update` -/

/-- The stored configuration: `Config.groups` and `Config.policies` class
attributes, both initially Python `None` (modelled as `Option.none`). -/
structure ConfigState where
  groups : Option GroupsT
  policies : Option (List Rule)
deriving DecidableEq

/-- Python dict truthiness of an optional dict or list: `None` and the
empty collection are falsy. -/
def truthyDict {α : Type} : Option (List α) → Bool
  | none => false
  | some l => !l.isEmpty

/-- Python `dict.update` on association lists: keys of `new` overwrite,
keys only in `old` are kept. -/
def dictUpdate (old new : GroupsT) : GroupsT :=
  old.filter (fun kv => (new.lookup kv.1).isNone) ++ new

/-- Model of `Config.update`: `if groups:` merge into the stored groups when those
are truthy, else assign; `if policies:` assign the stored policies. -/
def update (st : ConfigState) (groups : Option GroupsT)
    (policies : Option (List Rule)) : ConfigState :=
  let st1 :=
    if truthyDict groups then
      if truthyDict st.groups then
        { st with groups := some (dictUpdate (st.groups.getD []) (groups.getD [])) }
      else { st with groups := groups }
    else st
  if truthyDict policies then { st1 with policies := policies } else st1

/-! ### The container-name check plugin

`docker_leash/checks/container_name.py` is not under `src/`; only its test
file `src/tests/checks/test_container_name.py` is. The definitions below
are modelled from the spec (section 4.5) and constrained by that test file.
-/

/-- Modelled from the spec: `$USER` token substitution of the name-matching
plugin. Scanning left to right: a backslash escapes the next character
(the escaped form never undergoes substitution), and an unescaped
occurrence of `$USER` is replaced by the username. Per the test
`test_username_in_image_name`, the pattern `^$USERNAME-.*` with user
`someone` accepts the name `someoneNAME-love-me`: substitution rewrites
the `$USER` prefix of `$USERNAME`, it does not treat `$USERNAME` as a
separate token. -/
def substUserChars (u : List Char) : List Char → List Char
  | [] => []
  | '\\' :: c :: rest => '\\' :: c :: substUserChars u rest
  | '$' :: 'U' :: 'S' :: 'E' :: 'R' :: rest => u ++ substUserChars u rest
  | c :: rest => c :: substUserChars u rest

/-- Modelled from the spec: token substitution on strings. -/
def substUser (u pat : String) : String :=
  String.mk (substUserChars u.data pat.data)

/-- The characters after the first occurrence of `sep`, if any. -/
def afterChar (sep : Char) : List Char → Option (List Char)
  | [] => none
  | c :: rest => if c == sep then some rest else afterChar sep rest

/-- Python `str.split sep` on character lists: `splitOnChar sep s` always
returns at least one (possibly empty) part. -/
def splitOnChar (sep : Char) : List Char → List (List Char)
  | [] => [[]]
  | c :: rest =>
    if c == sep then [] :: splitOnChar sep rest
    else
      match splitOnChar sep rest with
      | h :: t => (c :: h) :: t
      | [] => [[c]]

/-- Modelled from the spec: the value of the `name` query parameter of a
URI, or the empty string when absent (the test `test_name_not_defined`
shows a create request without `?name=` behaves as the empty name). -/
def queryNameValue (uri : String) : String :=
  match afterChar '?' uri.data with
  | none => ""
  | some query =>
    match (splitOnChar '&' query).find?
        (fun kv => List.isPrefixOf ['n', 'a', 'm', 'e', '='] kv) with
    | some kv => String.mk (kv.drop 5)
    | none => ""

/-- Modelled from the spec: `query_parameter` extracts the candidate name
of a create-style request from its query string; with no URI at all it
raises `InvalidRequestException` (test `test_empty_payload`). -/
def query_parameter (payload : Payload) : Except PyErr String :=
  match payload.uri with
  | none => Except.error PyErr.invalidRequestException
  | some uri => Except.ok (queryNameValue uri)

/-- Modelled from the spec: `path_parameter` extracts the trailing path
segment of the URI; with no URI it raises `InvalidRequestException`
(test `test_empty_payload`), and with an empty trailing segment it raises
`UnauthorizedException` (test `test_bad_path_parameter`). -/
def path_parameter (payload : Payload) : Except PyErr String :=
  match payload.uri with
  | none => Except.error PyErr.invalidRequestException
  | some uri =>
    match (splitOnChar '/' uri.data).getLast? with
    | some seg =>
      if seg.isEmpty then Except.error PyErr.unauthorizedException
      else Except.ok (String.mk seg)
    | none => Except.error PyErr.unauthorizedException

/-- The plugin's `args` value: absent (`None`), a single pattern, or a
list of patterns. -/
inductive CheckArgs where
  | noArgs
  | one (pat : String)
  | many (pats : List String)
deriving DecidableEq

/-- The patterns carried by a `CheckArgs` value. -/
def argsToPatterns : CheckArgs → List String
  | CheckArgs.noArgs => []
  | CheckArgs.one p => [p]
  | CheckArgs.many ps => ps

/-- Modelled from the spec: `ContainerName.run`. Extract the candidate name
first (query parameter for create-style `POST` requests, trailing path
segment otherwise) — extraction failures propagate even when `args` is
absent (test `test_empty_payload`). Absent arguments always pass; else the
request passes when any pattern, after `$USER` substitution with the
caller's identity, matches the name, and is denied with
`UnauthorizedException` otherwise. -/
def containerNameRun (args : CheckArgs) (payload : Payload) : Except PyErr Unit :=
  match (if payload.method == some "POST" then query_parameter payload
         else path_parameter payload) with
  | Except.error e => Except.error e
  | Except.ok name =>
    match argsToPatterns args with
    | [] => Except.ok ()
    | pats =>
      if pats.any (fun pat => re_match (substUser (payload.user.getD "") pat) name)
      then Except.ok ()
      else Except.error PyErr.unauthorizedException

/-! ### Spec-side definitions, written from the claims' words -/

/-- Spec side (claim C2): the sign of the last pattern in the list whose
regular expression matches the hostname; `false` when none matches. -/
def lastMatchingSign (hostname : String) (host_rules : List String) : Bool :=
  match (host_rules.filter
      (fun r => re_match (String.mk r.data.tail) hostname)).getLast? with
  | some r => r.data.head? == some '+'
  | none => false

/-- Spec side (claim C4): a policy matches a username when some member
group's member set contains the username literally, or contains `"*"`,
or the username is the anonymous sentinel and it contains `"Anonymous"`. -/
def policyMatchesSpec (groups : GroupsT) (username : Option String)
    (policy : Policy) : Bool :=
  policy.members.any fun g =>
    match groups.lookup g with
    | none => false
    | some members =>
      (match username with
       | some u => members.contains u
       | none => false)
      || members.contains "*"
      || (username.isNone && members.contains "Anonymous")

/-- Spec side (claim C1): resolution entirely within one selected rule —
no policies key, no policy match, or empty check resolution all fall back
to that rule's default Check Set, else the resolved checks are returned. -/
def resolveWithinRule (groups : GroupsT) (username : Option String)
    (action : Action) (rule : Rule) : Checks :=
  match rule.policies with
  | none => default_rule rule
  | some pols =>
    match get_policy_by_member groups username pols with
    | none => default_rule rule
    | some prules =>
      let rules := match_rules action prules
      if rules.isEmpty then default_rule rule else rules

/-- A Bool observer for claim C6: whether a result is a
`ConfigurationException`. -/
def isConfigurationError {α : Type} : Except PyErr α → Bool
  | Except.error (PyErr.configurationException _) => true
  | _ => false

/-! ### Concrete inputs used by witnesses and counterexamples -/

/-- A concrete Action Resolver for witnesses. -/
def resolveConst : Option String → Option String → Action :=
  fun _ _ => { name := "containers_create", namespace_name := "containers" }

/-- A concrete rule whose hosts match everything, with no policies key. -/
def exampleRule : Rule :=
  { hosts := ["+.*"], policies := none, default := [("Allow", PyVal.pyNone)] }

/-- A concrete rule whose host pattern matches only hosts starting `a`. -/
def exampleRuleA : Rule :=
  { hosts := ["+a"], policies := none, default := [("Allow", PyVal.pyNone)] }

/-- A concrete payload for witnesses. -/
def examplePayload : Payload :=
  { user := some "someone", method := some "POST",
    uri := some "/v1.32/containers/create", host := "myhost" }

/-! ## Theorems -/

/-- One signed step of the host loop: the flag becomes the entry's sign
when its regex matches and is kept otherwise. -/
theorem matchHostGo_cons_signed (hostname r : String) (rest : List String) (m : Bool)
    (h : r.data.head? = some '+' ∨ r.data.head? = some '-') :
    matchHostGo hostname m (r :: rest) =
      matchHostGo hostname
        (if re_match (String.mk r.data.tail) hostname
         then r.data.head? == some '+' else m) rest := by
  rcases hd : r.data with _ | ⟨c, cs⟩
  · rw [hd] at h; simp at h
  · rw [hd] at h
    simp only [List.head?, Option.some_inj] at h
    rcases h with rfl | rfl
    · simp only [matchHostGo, hd, List.tail_cons, List.head?]
      cases hre : re_match (String.mk cs) hostname <;> simp [hre]
    · simp only [matchHostGo, hd, List.tail_cons, List.head?]
      cases hre : re_match (String.mk cs) hostname <;> simp [hre]

/-- When no entry's regex matches the hostname, the signed host loop
returns the incoming flag unchanged. -/
theorem matchHostGo_no_match (hostname : String) (host_rules : List String) :
    ∀ m : Bool,
      (∀ r ∈ host_rules, r.data.head? = some '+' ∨ r.data.head? = some '-') →
      host_rules.filter (fun r => re_match (String.mk r.data.tail) hostname) = [] →
      matchHostGo hostname m host_rules = Except.ok m := by
  induction host_rules with
  | nil => intro m _ _; rfl
  | cons r rest ih =>
    intro m hs hf
    have hr := hs r (List.mem_cons_self r rest)
    have hrest : ∀ x ∈ rest, x.data.head? = some '+' ∨ x.data.head? = some '-' :=
      fun x hx => hs x (List.mem_cons_of_mem r hx)
    rw [List.filter_cons] at hf
    rw [matchHostGo_cons_signed hostname r rest m hr]
    cases hre : re_match (String.mk r.data.tail) hostname
    · rw [hre] at hf
      simp only [Bool.false_eq_true, if_false] at hf ⊢
      exact ih m hrest hf
    · rw [hre] at hf; simp at hf

/-- When some entry's regex matches the hostname, the signed host loop
returns the sign of the last such entry, whatever the incoming flag. -/
theorem matchHostGo_last_match (hostname : String) (host_rules : List String) :
    ∀ (m : Bool) (r0 : String),
      (∀ r ∈ host_rules, r.data.head? = some '+' ∨ r.data.head? = some '-') →
      (host_rules.filter
        (fun r => re_match (String.mk r.data.tail) hostname)).getLast? = some r0 →
      matchHostGo hostname m host_rules = Except.ok (r0.data.head? == some '+') := by
  induction host_rules with
  | nil => intro m r0 _ h; simp at h
  | cons r rest ih =>
    intro m r0 hs h
    have hr := hs r (List.mem_cons_self r rest)
    have hrest : ∀ x ∈ rest, x.data.head? = some '+' ∨ x.data.head? = some '-' :=
      fun x hx => hs x (List.mem_cons_of_mem r hx)
    rw [List.filter_cons] at h
    rw [matchHostGo_cons_signed hostname r rest m hr]
    cases hre : re_match (String.mk r.data.tail) hostname
    · rw [hre] at h
      simp only [Bool.false_eq_true, if_false] at h ⊢
      exact ih m r0 hrest h
    · rw [hre] at h
      simp only [if_true] at h ⊢
      cases hfr : rest.filter (fun x => re_match (String.mk x.data.tail) hostname) with
      | nil =>
        rw [hfr, List.getLast?_singleton, Option.some_inj] at h
        subst h
        exact matchHostGo_no_match hostname rest _ hrest hfr
      | cons y ys =>
        rw [hfr, List.getLast?_cons_cons] at h
        exact ih _ r0 hrest (by rw [hfr]; exact h)

/-- C2 (confirmed): for every hostname and every list of signed host
patterns, `_match_host` returns the sign (`+` gives true, `-` gives false)
of the last pattern in the list whose regular expression matches the
hostname, scanning left to right, and false when no pattern matches. -/
theorem match_host_last_matching_sign (hostname : String) (host_rules : List String)
    (hsigned : ∀ r ∈ host_rules, r.data.head? = some '+' ∨ r.data.head? = some '-') :
    match_host hostname host_rules = Except.ok (lastMatchingSign hostname host_rules) := by
  unfold match_host lastMatchingSign
  cases h : (host_rules.filter
      (fun r => re_match (String.mk r.data.tail) hostname)).getLast? with
  | none =>
    exact matchHostGo_no_match hostname host_rules false hsigned
      (List.getLast?_eq_none_iff.mp h)
  | some r0 =>
    exact matchHostGo_last_match hostname host_rules false r0 hsigned h

/-- Witness for C2 at a concrete input: `web2` matches both `+web.*` and
`-web2`, and the later `-` wins. -/
theorem match_host_last_matching_sign_witness :
    match_host "web2" ["+web.*", "-web2"] =
      Except.ok (lastMatchingSign "web2" ["+web.*", "-web2"]) :=
  match_host_last_matching_sign "web2" ["+web.*", "-web2"] (by decide)

/-- The host loop raises `ConfigurationException` whenever the entries are
all non-empty and some entry is unsigned, whatever the incoming flag. -/
theorem matchHostGo_unsigned (hostname : String) (host_rules : List String) :
    ∀ m : Bool, (∀ r ∈ host_rules, r.data ≠ []) →
      (∃ r ∈ host_rules, r.data.head? ≠ some '+' ∧ r.data.head? ≠ some '-') →
      isConfigurationError (matchHostGo hostname m host_rules) = true := by
  induction host_rules with
  | nil => intro m _ h; simp at h
  | cons r rest ih =>
    intro m hne hbad
    have hnerest : ∀ x ∈ rest, x.data ≠ [] :=
      fun x hx => hne x (List.mem_cons_of_mem r hx)
    rcases hd : r.data with _ | ⟨c, cs⟩
    · exact absurd hd (hne r (List.mem_cons_self r rest))
    · by_cases hp : c = '+'
      · subst hp
        have hbad' : ∃ x ∈ rest, x.data.head? ≠ some '+' ∧ x.data.head? ≠ some '-' := by
          rcases hbad with ⟨x, hx, hxbad⟩
          rcases List.mem_cons.mp hx with rfl | hx'
          · rw [hd] at hxbad; simp at hxbad
          · exact ⟨x, hx', hxbad⟩
        simp only [matchHostGo, hd, if_pos rfl]
        cases hre : re_match (String.mk cs) hostname
        · simpa using ih m hnerest hbad'
        · simpa using ih true hnerest hbad'
      · by_cases hm : c = '-'
        · subst hm
          have hbad' : ∃ x ∈ rest, x.data.head? ≠ some '+' ∧ x.data.head? ≠ some '-' := by
            rcases hbad with ⟨x, hx, hxbad⟩
            rcases List.mem_cons.mp hx with rfl | hx'
            · rw [hd] at hxbad; simp at hxbad
            · exact ⟨x, hx', hxbad⟩
          have hne2 : ('-' : Char) ≠ '+' := by decide
          simp only [matchHostGo, hd, if_neg hne2, if_pos rfl]
          cases hre : re_match (String.mk cs) hostname
          · simpa using ih m hnerest hbad'
          · simpa using ih false hnerest hbad'
        · simp only [matchHostGo, hd, if_neg hp, if_neg hm]
          rfl

/-- C6 counterexample: an empty-string host entry makes `_match_host`
raise `IndexError` (from `hosts_reg[0]`), not `ConfigurationException`
as the claim states. -/
theorem match_host_empty_entry_counterexample :
    match_host "x" [""] = Except.error PyErr.indexError ∧
      isConfigurationError (match_host "x" [""]) = false :=
  ⟨rfl, rfl⟩

/-- C6 amended (theorem): if every entry of the host list is non-empty and
some entry does not begin with `+` or `-`, `_match_host` raises
`ConfigurationException`, regardless of the entry's position and of
whether earlier patterns matched. -/
theorem match_host_unsigned_config_error (hostname : String) (host_rules : List String)
    (hne : ∀ r ∈ host_rules, r.data ≠ [])
    (hbad : ∃ r ∈ host_rules, r.data.head? ≠ some '+' ∧ r.data.head? ≠ some '-') :
    isConfigurationError (match_host hostname host_rules) = true :=
  matchHostGo_unsigned hostname host_rules false hne hbad

/-- Witness for the amended C6 at a concrete input: an unsigned entry in
second position after a matching `+` pattern still raises. -/
theorem match_host_unsigned_config_error_witness :
    isConfigurationError (match_host "x" ["+.*", "nosign"]) = true :=
  match_host_unsigned_config_error "x" ["+.*", "nosign"] (by decide)
    ⟨"nosign", by decide, by decide, by decide⟩

/-- The check-building loop appends the mapping's entries to the
accumulator in order. -/
theorem checksAdd_foldl (m : CheckMap) :
    ∀ acc : Checks,
      m.foldl (fun checks entry => checksAdd checks [(entry.1, entry.2)]) acc = acc ++ m := by
  induction m with
  | nil => intro acc; simp
  | cons e t ih =>
    intro acc
    rw [List.foldl_cons, ih]
    simp [checksAdd]

/-- Collecting all entries of a mapping into a fresh `Checks` yields
exactly that mapping's entries, in order. -/
theorem addAll_eq (m : CheckMap) : addAll m = m := by
  unfold addAll
  rw [checksAdd_foldl]
  simp

/-- C3 (confirmed): `_match_rules` tries an exact match on the action's
name first, then the action's namespace, then the literal key `any`, in
that strict order; the first present tier contributes all of its
(check-name, arguments) entries and no later tier is consulted (no
merging); when none of the three keys is present the result is the empty
Check Set. -/
theorem match_rules_three_tier (action : Action)
    (actions : List (String × CheckMap)) :
    match_rules action actions =
      (match actions.lookup action.name with
       | some m => m
       | none =>
         match actions.lookup action.namespace_name with
         | some m => m
         | none =>
           match actions.lookup "any" with
           | some m => m
           | none => []) := by
  unfold match_rules
  cases h1 : actions.lookup action.name with
  | some m => simp [addAll_eq]
  | none =>
    cases h2 : actions.lookup action.namespace_name with
    | some m => simp [addAll_eq]
    | none =>
      cases h3 : actions.lookup "any" with
      | some m => simp [addAll_eq]
      | none => rfl

/-- C4 (confirmed): `_get_policy_by_member` returns the rules of the first
policy (in list order) matched by the username — via literal membership,
via `"*"`, or via the anonymous/`"Anonymous"` pairing — and the no-policy
signal (`none`) otherwise; and a member group containing `"*"` makes its
policy match for every username, including ones not listed. -/
theorem get_policy_by_member_first_match :
    (∀ (groups : GroupsT) (username : Option String) (policies : List Policy),
       get_policy_by_member groups username policies =
         (policies.find? (policyMatchesSpec groups username)).map Policy.rules)
  ∧ (∀ (groups : GroupsT) (username : Option String) (policy : Policy)
       (g : String) (members : List String),
       g ∈ policy.members → groups.lookup g = some members →
       members.contains "*" = true →
       policyMatchesSpec groups username policy = true) := by
  constructor
  · intro groups username policies
    induction policies with
    | nil => rfl
    | cons p rest ih =>
      have hspec : policyMatchesSpec groups username p
          = p.members.any (memberMatch groups username) := rfl
      cases hp : p.members.any (memberMatch groups username)
      · rw [List.find?_cons_of_neg _ (by rw [hspec, hp]; simp)]
        simp only [get_policy_by_member, hp, Bool.false_eq_true, if_false]
        exact ih
      · rw [List.find?_cons_of_pos _ (by rw [hspec, hp])]
        simp [get_policy_by_member, hp]
  · intro groups username policy g members hg hlook hstar
    unfold policyMatchesSpec
    rw [List.any_eq_true]
    refine ⟨g, hg, ?_⟩
    rw [hlook]
    have hmem : "*" ∈ members := by simpa using hstar
    simp [hmem]

/-- Witness for C4 at a concrete input: the group `g` contains `"*"`, so
its policy matches the unlisted username `bob`. -/
theorem get_policy_by_member_first_match_witness :
    policyMatchesSpec [("g", ["alice", "*"])] (some "bob")
      (Policy.mk ["g"] []) = true :=
  get_policy_by_member_first_match.2 [("g", ["alice", "*"])] (some "bob")
    (Policy.mk ["g"] []) "g" ["alice", "*"] (by decide) (by decide) (by decide)

/-- C10 (confirmed): a member group name absent from the configured groups
table never matches; a policy all of whose member groups are unknown is
never selected, and selection proceeds to the later policies. (The
membership test is total: no error is raised on unknown group names.) -/
theorem get_policy_by_member_unknown_groups (groups : GroupsT)
    (username : Option String) (policy : Policy) (rest : List Policy)
    (h : ∀ g ∈ policy.members, groups.lookup g = none) :
    get_policy_by_member groups username (policy :: rest) =
      get_policy_by_member groups username rest := by
  have hany : policy.members.any (memberMatch groups username) = false := by
    rw [List.any_eq_false]
    intro g hg
    unfold memberMatch
    rw [h g hg]
    simp
  simp [get_policy_by_member, hany]

/-- Witness for C10 at a concrete input: a policy naming only the unknown
group `ghost` is skipped in favor of the later policy. -/
theorem get_policy_by_member_unknown_groups_witness :
    get_policy_by_member [("known", ["alice"])] (some "alice")
        (Policy.mk ["ghost"] [] :: [Policy.mk ["known"] []]) =
      get_policy_by_member [("known", ["alice"])] (some "alice")
        [Policy.mk ["known"] []] :=
  get_policy_by_member_unknown_groups [("known", ["alice"])] (some "alice")
    (Policy.mk ["ghost"] []) [Policy.mk ["known"] []] (by decide)

/-- A rule whose host match raises propagates the error. -/
theorem getRulesGo_cons_error (groups : GroupsT) (action : Action)
    (username : Option String) (hostname : String) (rule : Rule) (rest : List Rule)
    (e : PyErr) (hm : match_host hostname rule.hosts = Except.error e) :
    getRulesGo groups action username hostname (rule :: rest) = Except.error e := by
  simp [getRulesGo, hm]

/-- A rule whose host match yields false is skipped. -/
theorem getRulesGo_cons_skip (groups : GroupsT) (action : Action)
    (username : Option String) (hostname : String) (rule : Rule) (rest : List Rule)
    (hm : match_host hostname rule.hosts = Except.ok false) :
    getRulesGo groups action username hostname (rule :: rest) =
      getRulesGo groups action username hostname rest := by
  simp [getRulesGo, hm]

/-- A rule whose host match yields true resolves entirely within that rule,
with every inner fallback going to that rule's default checks. -/
theorem getRulesGo_cons_hit (groups : GroupsT) (action : Action)
    (username : Option String) (hostname : String) (rule : Rule) (rest : List Rule)
    (hm : match_host hostname rule.hosts = Except.ok true) :
    getRulesGo groups action username hostname (rule :: rest) =
      Except.ok (some (resolveWithinRule groups username action rule)) := by
  cases hp : rule.policies with
  | none => simp [getRulesGo, hm, resolveWithinRule, hp]
  | some pols =>
    cases hq : get_policy_by_member groups username pols with
    | none => simp [getRulesGo, hm, resolveWithinRule, hp, hq]
    | some prules =>
      cases he : (match_rules action prules).isEmpty <;>
        simp [getRulesGo, hm, resolveWithinRule, hp, hq, he]

/-- A span of rules whose host matches all yield false is skipped whole. -/
theorem getRulesGo_skip_all (groups : GroupsT) (action : Action)
    (username : Option String) (hostname : String) :
    ∀ (pre tailRules : List Rule),
      (∀ r ∈ pre, match_host hostname r.hosts = Except.ok false) →
      getRulesGo groups action username hostname (pre ++ tailRules) =
        getRulesGo groups action username hostname tailRules := by
  intro pre
  induction pre with
  | nil => intro t _; rfl
  | cons r pre ih =>
    intro t hpre
    rw [List.cons_append,
      getRulesGo_cons_skip groups action username hostname r (pre ++ t)
        (hpre r (List.mem_cons_self r pre))]
    exact ih t (fun x hx => hpre x (List.mem_cons_of_mem r hx))

/-- C1 (confirmed): `get_rules` inspects only the first rule whose host
rule matches the payload's hostname and resolves entirely within it: with
no policies key, no policy match, or empty check resolution it returns
that same rule's default Check Set, and no later rule is ever consulted
(the result does not depend on `post`). -/
theorem get_rules_first_matching_rule (resolve : Option String → Option String → Action)
    (groups : GroupsT) (payload : Payload) (pre : List Rule) (rule : Rule)
    (post : List Rule)
    (hpre : ∀ r ∈ pre, match_host payload.host r.hosts = Except.ok false)
    (hrule : match_host payload.host rule.hosts = Except.ok true) :
    get_rules resolve groups (pre ++ rule :: post) payload =
      Except.ok (some (resolveWithinRule groups payload.user
        (resolve payload.method payload.uri) rule)) := by
  unfold get_rules
  rw [getRulesGo_skip_all _ _ _ _ pre (rule :: post) hpre,
    getRulesGo_cons_hit _ _ _ _ rule post hrule]

/-- Witness for C1 at a concrete input: the first rule's hosts do not
match `myhost`, the second rule's do, and its default is returned since it
has no policies; the third rule is present but irrelevant. -/
theorem get_rules_first_matching_rule_witness :
    get_rules resolveConst [] ([exampleRuleA] ++ exampleRule :: [exampleRuleA])
        examplePayload =
      Except.ok (some (resolveWithinRule [] examplePayload.user
        (resolveConst examplePayload.method examplePayload.uri) exampleRule)) :=
  get_rules_first_matching_rule resolveConst [] examplePayload
    [exampleRuleA] exampleRule [exampleRuleA] (by decide) (by decide)

/-- The loop `getRulesGo` returns `ok none` exactly when every rule's host match
yields false (so in particular no exception is raised anywhere). -/
theorem getRulesGo_none_iff (groups : GroupsT) (action : Action)
    (username : Option String) (hostname : String) :
    ∀ policies : List Rule,
      (getRulesGo groups action username hostname policies = Except.ok none ↔
        ∀ r ∈ policies, match_host hostname r.hosts = Except.ok false) := by
  intro policies
  induction policies with
  | nil => simp [getRulesGo]
  | cons r rest ih =>
    cases hm : match_host hostname r.hosts with
    | error e =>
      rw [getRulesGo_cons_error groups action username hostname r rest e hm]
      constructor
      · intro h; exact absurd h (by simp)
      · intro h
        have hr := h r (List.mem_cons_self r rest)
        rw [hm] at hr
        exact absurd hr (by simp)
    | ok b =>
      cases b
      · rw [getRulesGo_cons_skip groups action username hostname r rest hm, ih]
        constructor
        · intro h x hx
          rcases List.mem_cons.mp hx with rfl | hx'
          · exact hm
          · exact h x hx'
        · intro h x hx
          exact h x (List.mem_cons_of_mem r hx)
      · rw [getRulesGo_cons_hit groups action username hostname r rest hm]
        constructor
        · intro h; exact absurd h (by simp)
        · intro h
          have hr := h r (List.mem_cons_self r rest)
          rw [hm] at hr
          exact absurd hr (by simp)

/-- C5 counterexample: with a configured rule whose host rule does not
match the payload's hostname, top-level resolution returns `None`
(`Except.ok none`), not a Check Set — contradicting the claim that the
result is never `None` even when no rule's host rule matches. -/
theorem get_rules_no_match_counterexample :
    get_rules resolveConst [] [exampleRuleA]
      { user := none, method := none, uri := none, host := "b" } =
      Except.ok none := by decide

/-- C5 amended (theorem): `get_rules` returns `None` exactly when every
configured rule's host rule fails to match the payload's hostname (and no
exception is raised); whenever some rule's host rule matches, the result
is a Check Set — the resolved one or the selected rule's default. -/
theorem get_rules_none_iff_no_host_match (resolve : Option String → Option String → Action)
    (groups : GroupsT) (policies : List Rule) (payload : Payload) :
    get_rules resolve groups policies payload = Except.ok none ↔
      ∀ r ∈ policies, match_host payload.host r.hosts = Except.ok false :=
  getRulesGo_none_iff groups (resolve payload.method payload.uri) payload.user
    payload.host policies

/-- One step of `dictUpdate`: an old pair is kept iff its key is not
overwritten by the new dict. -/
theorem dictUpdate_cons (k1 : String) (v1 : List String) (old new : GroupsT) :
    dictUpdate ((k1, v1) :: old) new =
      if (new.lookup k1).isNone then (k1, v1) :: dictUpdate old new
      else dictUpdate old new := by
  unfold dictUpdate
  rw [List.filter_cons]
  cases hn : (new.lookup k1).isNone <;> simp [hn]

/-- A key present in the new dict looks up to its new value after merge. -/
theorem dictUpdate_lookup_new (new : GroupsT) (k : String) (v : List String)
    (h : new.lookup k = some v) :
    ∀ old : GroupsT, (dictUpdate old new).lookup k = some v := by
  intro old
  induction old with
  | nil => simpa [dictUpdate] using h
  | cons kv old ih =>
    obtain ⟨k1, v1⟩ := kv
    rw [dictUpdate_cons]
    by_cases hk : k = k1
    · subst hk
      rw [h]
      simpa using ih
    · cases hn : (new.lookup k1).isNone
      · simpa [hn] using ih
      · simp only [hn, if_true]
        rw [List.lookup_cons]
        have hbeq : (k == k1) = false := by simp [hk]
        rw [hbeq]
        exact ih

/-- A key absent from the new dict keeps its old lookup after merge. -/
theorem dictUpdate_lookup_old (new : GroupsT) (k : String)
    (h : new.lookup k = none) :
    ∀ old : GroupsT, (dictUpdate old new).lookup k = old.lookup k := by
  intro old
  induction old with
  | nil => simpa [dictUpdate] using h
  | cons kv old ih =>
    obtain ⟨k1, v1⟩ := kv
    rw [dictUpdate_cons]
    by_cases hk : k = k1
    · subst hk
      rw [h]
      simp only [Option.isNone_none, if_true]
      rw [List.lookup_cons, List.lookup_cons]
      have hbeq : (k == k) = true := by simp
      rw [hbeq]
    · have hbeq : (k == k1) = false := by simp [hk]
      cases hn : (new.lookup k1).isNone
      · simp only [hn, Bool.false_eq_true, if_false]
        rw [ih, List.lookup_cons, hbeq]
      · simp only [hn, if_true]
        rw [List.lookup_cons, hbeq, ih, List.lookup_cons, hbeq]

/-- C9 counterexample: supplying an empty policies value to `update` keeps
the previously stored policy rules instead of replacing them with the
supplied (empty) value. -/
theorem update_empty_policies_counterexample :
    (update { groups := none, policies := some [exampleRule] } none
        (some [])).policies = some [exampleRule] ∧
      some [exampleRule] ≠ some ([] : List Rule) :=
  ⟨by decide, by decide⟩

/-- C9 amended (theorem): when a non-empty groups argument is supplied,
the stored groups become the old groups merged with the argument (keys of
the argument are added or overwrite, other keys keep their old value);
when a non-empty policies value is supplied, the stored policy rules
become exactly the supplied value; an absent or empty groups/policies
argument leaves the stored state unchanged. -/
theorem update_merge_groups_replace_policies (st : ConfigState) (g : GroupsT)
    (ps : List Rule) (gArg : Option GroupsT) (pArg : Option (List Rule))
    (k : String) :
    (g ≠ [] →
      ((update st (some g) pArg).groups.getD []).lookup k =
        (match g.lookup k with
         | some v => some v
         | none => (st.groups.getD []).lookup k))
  ∧ (ps ≠ [] → (update st gArg (some ps)).policies = some ps)
  ∧ update st none none = st
  ∧ update st (some []) (some []) = st := by
  refine ⟨?_, ?_, ?_, ?_⟩
  · intro hg
    have htg : truthyDict (some g) = true := by
      simp [truthyDict, hg]
    have hgroups : (update st (some g) pArg).groups =
        (if truthyDict st.groups then some (dictUpdate (st.groups.getD []) g)
         else some g) := by
      unfold update
      cases htp : truthyDict pArg <;> cases hts : truthyDict st.groups <;>
        simp [htg, htp, hts]
    rw [hgroups]
    cases hts : truthyDict st.groups
    · have hold : st.groups.getD [] = [] := by
        cases hsg : st.groups with
        | none => rfl
        | some l =>
          rw [hsg] at hts
          simp [truthyDict] at hts
          simp [hts]
      rw [hold]
      simp only [Bool.false_eq_true, if_false, Option.getD_some]
      cases hnk : g.lookup k <;> simp [hnk]
    · simp only [if_true, Option.getD_some]
      cases hnk : g.lookup k with
      | none => rw [dictUpdate_lookup_old g k hnk]
      | some v => rw [dictUpdate_lookup_new g k v hnk]
  · intro hps
    have htps : truthyDict (some ps) = true := by
      simp [truthyDict, hps]
    unfold update
    cases htg2 : truthyDict gArg <;> cases hts : truthyDict st.groups <;>
      simp [htps, htg2, hts]
  · rfl
  · rfl

/-- Witness for the amended C9 at concrete inputs: merging adds the new
key `b` while the policies update replaces the stored list. -/
theorem update_merge_groups_replace_policies_witness :
    ((update { groups := some [("a", ["u"])], policies := none }
        (some [("b", ["v"])]) none).groups.getD []).lookup "b" =
      (match ([("b", ["v"])] : GroupsT).lookup "b" with
       | some v => some v
       | none =>
         ((ConfigState.mk (some [("a", ["u"])]) none).groups.getD []).lookup "b") ∧
    (update { groups := some [("a", ["u"])], policies := none } none
        (some [exampleRule])).policies = some [exampleRule] :=
  ⟨(update_merge_groups_replace_policies
      (ConfigState.mk (some [("a", ["u"])]) none) [("b", ["v"])] [exampleRule]
      none none "b").1 (by decide),
   (update_merge_groups_replace_policies
      (ConfigState.mk (some [("a", ["u"])]) none) [("b", ["v"])] [exampleRule]
      none none "b").2.1 (by decide)⟩

/-- C7 counterexample: with username `someone`, substitution rewrites the
pattern `^$USERNAME-.*` to `^someoneNAME-.*`, which accepts the candidate
name `someoneNAME-love-me` (exactly what the repository's test
`test_username_in_image_name` requires), while `^someone-.*` — the claim's
asserted equivalent under whole-token substitution — rejects that name.
So `$USERNAME` is not rewritten as a distinct whole token. -/
theorem substUser_username_token_counterexample :
    substUser "someone" "^$USERNAME-.*" = "^someoneNAME-.*" ∧
      re_match (substUser "someone" "^$USERNAME-.*") "someoneNAME-love-me" = true ∧
      re_match "^someone-.*" "someoneNAME-love-me" = false :=
  ⟨by decide, by decide, by decide⟩

/-- C7 amended (theorem): for every username `u`, the unescaped token
`$USER` is rewritten to `u` before matching; `$USERNAME` is not a distinct
token — only its `$USER` prefix is rewritten, so `^$USERNAME-.*` behaves
like `^` ++ u ++ `NAME-.*`; and an escaped token is never substituted. -/
theorem substUser_user_token (u : String) :
    substUser u "^$USER-.*" = "^" ++ u ++ "-.*" ∧
      substUser u "^$USERNAME-.*" = "^" ++ u ++ "NAME-.*" ∧
      substUser u "^\\$USER-.*" = "^\\$USER-.*" := by
  obtain ⟨d⟩ := u
  exact ⟨rfl, rfl, rfl⟩

/-- C8 counterexample: a DELETE request whose URI ends in `/` offers no
trailing path segment (and no query parameter of a create-style request),
yet the plugin fails with `UnauthorizedException` — the denial signal —
not `InvalidRequestException` as the claim states (this is the behavior
the repository's test `test_bad_path_parameter` requires). -/
theorem containerName_empty_segment_counterexample :
    containerNameRun (CheckArgs.one ".*")
        { user := some "someone", method := some "DELETE",
          uri := some "/v1.32/containers/", host := "" } =
      Except.error PyErr.unauthorizedException ∧
      PyErr.unauthorizedException ≠ PyErr.invalidRequestException :=
  ⟨by decide, by decide⟩

/-- C8 amended (theorem): the invalid-request signal is reserved for
requests with no URI at all: for every argument value, user, method and
host, the plugin fails with `InvalidRequestException` on a payload without
a URI, and that signal is distinct from the denial signal
`UnauthorizedException` (a URI with an empty trailing segment is instead
denied with `UnauthorizedException` during extraction). -/
theorem containerName_missing_uri_invalid_request :
    (∀ (args : CheckArgs) (user method : Option String) (host : String),
       containerNameRun args
           { user := user, method := method, uri := none, host := host } =
         Except.error PyErr.invalidRequestException)
  ∧ PyErr.invalidRequestException ≠ PyErr.unauthorizedException := by
  constructor
  · intro args user method host
    unfold containerNameRun
    cases hb : (method == some "POST") <;>
      simp [hb, query_parameter, path_parameter]
  · intro h
    exact absurd h (by decide)

end DockerLeash
